import Mathlib

/-!
Verification of the vCard 3.0 builder and related helpers of `src/app.py`
(vcard-generator). The Python code is shallowly embedded: strings are
`List Char`, the form-data dictionary is an association list, and every
operation is a total computable Lean function translated from the source.
Definitions come first, all theorems follow.
-/

set_option maxRecDepth 4000

namespace VCard

/-- Characters a Python string, hence our model, is made of. -/
abbrev Str := List Char

/-- Left-to-right replacement of every occurrence of the single character
`c` by the string `new`; embeds Python `s.replace(old, new)` for a
one-character `old` (occurrences of a single character never overlap). -/
def replaceChar (c : Char) (new : Str) : Str → Str
  | [] => []
  | a :: rest => if a = c then new ++ replaceChar c new rest else a :: replaceChar c new rest

/-- Left-to-right, non-overlapping replacement of every occurrence of the
two-character pattern CR LF by `new`; embeds Python
`s.replace("\r\n", new)`. -/
def replaceCRLF (new : Str) : Str → Str
  | [] => []
  | [a] => [a]
  | a :: b :: rest =>
    if a = '\r' ∧ b = '\n' then new ++ replaceCRLF new rest
    else a :: replaceCRLF new (b :: rest)

/-- Embedding of `_escape` from `src/app.py`: chained `str.replace` calls,
backslash first, then semicolon, comma, CRLF and bare LF. -/
def _escape (s : Str) : Str :=
  let s1 := replaceChar '\\' ['\\', '\\'] s
  let s2 := replaceChar ';' ['\\', ';'] s1
  let s3 := replaceChar ',' ['\\', ','] s2
  let s4 := replaceCRLF ['\\', 'n'] s3
  replaceChar '\n' ['\\', 'n'] s4

/-- Image of one character under the escaping rule stated by the spec:
backslash, semicolon and comma get a protecting backslash, LF becomes
backslash + literal n, anything else is untouched. -/
def escChar (c : Char) : Str :=
  if c = '\\' then ['\\', '\\']
  else if c = ';' then ['\\', ';']
  else if c = ',' then ['\\', ',']
  else if c = '\n' then ['\\', 'n']
  else [c]

/-- Single-pass escaping as the spec describes it: CR LF pairs become
backslash + literal n, every other character is escaped independently
(so a bare CR stays). -/
def specEscape : Str → Str
  | [] => []
  | [c] => escChar c
  | c :: d :: rest =>
    if c = '\r' ∧ d = '\n' then '\\' :: 'n' :: specEscape rest
    else escChar c ++ specEscape (d :: rest)

/-- Image of one character under the first three (single-character)
substitutions of `_escape`. -/
def esc3 (c : Char) : Str :=
  if c = '\\' then ['\\', '\\']
  else if c = ';' then ['\\', ';']
  else if c = ',' then ['\\', ',']
  else [c]

/-- Inverse of one escaped character per the vCard 3.0 grammar. -/
def unescChar (c : Char) : Char := if c = 'n' then '\n' else c

/-- Modelled from the spec: the value unescaping a compliant vCard 3.0
parser performs (the parser is not part of this repository). Backslash
followed by `n` becomes LF, backslash followed by any other character
becomes that character, everything else is copied. -/
def unescape : Str → Str
  | [] => []
  | [c] => [c]
  | c :: d :: rest =>
    if c = '\\' then unescChar d :: unescape rest
    else c :: unescape (d :: rest)

/-! ## Form data and the vCard builder -/

/-- The form data: a finite mapping from field keys to string values.
Python's `dict` is modelled as an association list with first-match
lookup. -/
abbrev Data := List (String × String)

/-- Embeds `data.get(key, "")`.  `data.get(key)` followed by Python `or`
is also captured by this, because an absent key and an empty value behave
identically through `or`. -/
def dget (data : Data) (k : String) : String :=
  match data.find? (fun p => p.1 = k) with
  | some p => p.2
  | none => ""

/-- ASCII whitespace as recognised by Python's `str.strip()` (the source
only ever feeds it form strings; the rarely-used non-ASCII Unicode spaces
are not modelled). -/
def isPySpace (c : Char) : Bool :=
  c = ' ' || c = '\t' || c = '\n' || c = '\r' || c = '\x0b' || c = '\x0c'

/-- Embeds Python `s.strip()`. -/
def pstrip (s : Str) : Str :=
  ((s.dropWhile isPySpace).reverse.dropWhile isPySpace).reverse

/-- Embeds `" ".join(xs)`. -/
def interSp : List Str → Str
  | [] => []
  | [x] => x
  | x :: rest => x ++ ' ' :: interSp rest

/-- Embeds `" ".join(x for x in xs if x)`. -/
def joinSp (xs : List Str) : Str :=
  interSp (xs.filter (fun x => !x.isEmpty))

/-- A calendar date as `datetime.date` holds it. -/
structure PyDate where
  year : Nat
  month : Nat
  day : Nat
deriving DecidableEq

/-- Gregorian leap-year rule, as `datetime` implements it. -/
def isLeap (y : Nat) : Bool :=
  y % 4 = 0 && (y % 100 ≠ 0 || y % 400 = 0)

def daysInMonth (y m : Nat) : Nat :=
  if m = 2 then (if isLeap y then 29 else 28)
  else if m = 4 ∨ m = 6 ∨ m = 9 ∨ m = 11 then 30
  else 31

def digitVal (c : Char) : Nat := c.toNat - '0'.toNat

def digitsToNat (cs : Str) : Nat :=
  cs.foldl (fun a c => 10 * a + digitVal c) 0

/-- Embeds `datetime.date.fromisoformat` on its documented
`YYYY-MM-DD` form (exactly ten characters, two hyphens, a valid
Gregorian calendar date in years 1–9999); anything else raises, which the
source catches. -/
def parseIso (s : Str) : Option PyDate :=
  match s with
  | [y1, y2, y3, y4, h1, m1, m2, h2, d1, d2] =>
    if y1.isDigit && y2.isDigit && y3.isDigit && y4.isDigit &&
        h1 = '-' && m1.isDigit && m2.isDigit && h2 = '-' && d1.isDigit && d2.isDigit then
      let y := digitsToNat [y1, y2, y3, y4]
      let m := digitsToNat [m1, m2]
      let d := digitsToNat [d1, d2]
      if 1 ≤ y && 1 ≤ m && m ≤ 12 && 1 ≤ d && d ≤ daysInMonth y m then
        some ⟨y, m, d⟩
      else none
    else none
  | _ => none

def digitChar (n : Nat) : Char := Char.ofNat ('0'.toNat + n)

def pad2 (n : Nat) : Str := [digitChar (n / 10 % 10), digitChar (n % 10)]

def pad4 (n : Nat) : Str :=
  [digitChar (n / 1000 % 10), digitChar (n / 100 % 10), digitChar (n / 10 % 10),
    digitChar (n % 10)]

/-- Embeds `datetime.date.isoformat`: canonical zero-padded
`YYYY-MM-DD`. -/
def isoformat (d : PyDate) : Str :=
  pad4 d.year ++ '-' :: pad2 d.month ++ '-' :: pad2 d.day

/-- Keeps the characters the fallback `re.sub(r"[^0-9-]", "", bday)`
keeps. -/
def isDigitHyphen (c : Char) : Bool := c.isDigit || c = '-'

/-- The `bday` local of `build_vcard`: trimmed, then normalised through
`date.fromisoformat(...).isoformat()` with the digit-stripping fallback
on parse failure; empty input stays empty. -/
def bdayValue (data : Data) : Str :=
  let bday0 := pstrip (dget data "bday").data
  if bday0 = [] then []
  else
    match parseIso bday0 with
    | some d => isoformat d
    | none => bday0.filter isDigitHyphen

/-- The escaped name component `prefix` of `build_vcard`. -/
def prefxV (data : Data) : Str := _escape (dget data "prefix").data

/-- The escaped name component `first` of `build_vcard`. -/
def firstV (data : Data) : Str := _escape (dget data "first_name").data

/-- The escaped name component `addl` of `build_vcard`. -/
def addlV (data : Data) : Str := _escape (dget data "additional").data

/-- The escaped name component `last` of `build_vcard`. -/
def lastV (data : Data) : Str := _escape (dget data "last_name").data

/-- The escaped name component `suffix` of `build_vcard`. -/
def suffixV (data : Data) : Str := _escape (dget data "suffix").data

/-- The `fn` local of `build_vcard`: the raw `full_name` if truthy, else
the space-join of the non-empty escaped components; then stripped and
escaped (again). -/
def fnValue (data : Data) : Str :=
  let raw := if (dget data "full_name").data ≠ [] then (dget data "full_name").data
    else joinSp [prefxV data, firstV data, addlV data, lastV data, suffixV data]
  _escape (pstrip raw)

def orgV (data : Data) : Str := _escape (dget data "org").data

def titleV (data : Data) : Str := _escape (dget data "title").data

def roleV (data : Data) : Str := _escape (dget data "role").data

def urlV (data : Data) : Str := _escape (dget data "url").data

def noteV (data : Data) : Str := _escape (dget data "note").data

/-- The `N:` line of `build_vcard`. -/
def nLine (data : Data) : Str :=
  "N:".data ++ lastV data ++ ';' :: firstV data ++ ';' :: addlV data ++
    ';' :: prefxV data ++ ';' :: suffixV data

/-- One conditionally emitted `lines.append(f"TAG:{value}")`. -/
def singleLine (tag : String) (v : Str) : List Str :=
  if v ≠ [] then [tag.data ++ v] else []

/-- The trimmed multi-value field `data.get(f"email_{kind}", "").strip()`
(same shape for `tel_`). -/
def multiV (data : Data) (key : String) : Str := pstrip (dget data key).data

/-- One `EMAIL;TYPE=...`/`TEL;TYPE=...` line, emitted when the trimmed
value is non-empty; the value is escaped. -/
def typedLine (tag : String) (v : Str) : List Str :=
  if v ≠ [] then [tag.data ++ _escape v] else []

/-- The unrolled `for kind in ("work", "home")` email loop. -/
def emailLines (data : Data) : List Str :=
  typedLine "EMAIL;TYPE=WORK:" (multiV data "email_work") ++
    typedLine "EMAIL;TYPE=HOME:" (multiV data "email_home")

/-- The unrolled `for kind in ("cell", "work", "home")` phone loop. -/
def telLines (data : Data) : List Str :=
  typedLine "TEL;TYPE=CELL:" (multiV data "tel_cell") ++
    typedLine "TEL;TYPE=WORK:" (multiV data "tel_work") ++
    typedLine "TEL;TYPE=HOME:" (multiV data "tel_home")

/-- The five escaped address sub-fields of the nested `adr` helper. -/
def adrField (data : Data) (k sub : String) : Str :=
  _escape (dget data (k ++ sub)).data

/-- The `any([street, city, region, postal, country])` guard of `adr`. -/
def adrCond (data : Data) (k : String) : Prop :=
  adrField data k "_street" ≠ [] ∨ adrField data k "_city" ≠ [] ∨
    adrField data k "_region" ≠ [] ∨ adrField data k "_postal" ≠ [] ∨
    adrField data k "_country" ≠ []

instance (data : Data) (k : String) : Decidable (adrCond data k) := by
  unfold adrCond
  infer_instance

/-- The `ADR;TYPE=...` line the `adr` helper appends. -/
def adrLine (data : Data) (k : String) (tag : String) : Str :=
  tag.data ++ adrField data k "_street" ++ ';' :: adrField data k "_city" ++
    ';' :: adrField data k "_region" ++ ';' :: adrField data k "_postal" ++
    ';' :: adrField data k "_country"

/-- The nested `adr(prefix_key, kind)` helper of `build_vcard`. -/
def adrBlock (data : Data) (k : String) (tag : String) : List Str :=
  if adrCond data k then [adrLine data k tag] else []

/-- The `lines` list of `build_vcard`, in source order. -/
def vcardLines (data : Data) : List Str :=
  ["BEGIN:VCARD".data, "VERSION:3.0".data, nLine data, "FN:".data ++ fnValue data] ++
    singleLine "ORG:" (orgV data) ++
    singleLine "TITLE:" (titleV data) ++
    singleLine "ROLE:" (roleV data) ++
    singleLine "URL:" (urlV data) ++
    singleLine "BDAY:" (bdayValue data) ++
    emailLines data ++
    telLines data ++
    adrBlock data "home" "ADR;TYPE=HOME:;;" ++
    adrBlock data "work" "ADR;TYPE=WORK:;;" ++
    singleLine "NOTE:" (noteV data) ++
    ["END:VCARD".data]

/-- Embeds `"\r\n".join(lines) + "\r\n"` for the (always non-empty)
`lines` list. -/
def joinCRLF : List Str → Str
  | [] => []
  | l :: rest => l ++ '\r' :: '\n' :: joinCRLF rest

/-- Embedding of `build_vcard` from `src/app.py`. -/
def build_vcard (data : Data) : Str := joinCRLF (vcardLines data)

/-- Characters `re.sub(r"[^A-Za-z0-9_.-]", "_", ...)` keeps unchanged. -/
def isFnameOk (c : Char) : Bool :=
  c.isAlpha || c.isDigit || c = '_' || c = '.' || c = '-'

/-- The or-chain `data.get("last_name") or data.get("full_name") or
"contact"` of the `generate` handler. -/
def rawBase (data : Data) : String :=
  if dget data "last_name" ≠ "" then dget data "last_name"
  else if dget data "full_name" ≠ "" then dget data "full_name"
  else "contact"

/-- The `(...).strip() or "contact"` step of the `generate` handler. -/
def strippedBase (data : Data) : Str :=
  if pstrip (rawBase data).data = [] then "contact".data else pstrip (rawBase data).data

/-- The sanitised filename base of the `generate` handler:
`re.sub(r"[^A-Za-z0-9_.-]", "_", filename)`. -/
def sanitizeBase (data : Data) : Str :=
  (strippedBase data).map (fun c => if isFnameOk c then c else '_')

/-- Download filename of the `download` branch of `generate`. -/
def vcfFilename (data : Data) : Str := sanitizeBase data ++ ".vcf".data

/-- Download filename of the `qrcode` branch of `generate`. -/
def pngFilename (data : Data) : Str := sanitizeBase data ++ ".png".data

/-- The FN value exactly as the amended claim C3 states it: a non-empty
`full_name` is stripped and escaped once; otherwise each name component
is escaped, the non-empty escaped components are joined with single
spaces, and the join is stripped and escaped a second time. -/
def fnSpec (data : Data) : Str :=
  if (dget data "full_name").data ≠ [] then _escape (pstrip (dget data "full_name").data)
  else
    _escape (pstrip (interSp
      (([(dget data "prefix").data, (dget data "first_name").data,
          (dget data "additional").data, (dget data "last_name").data,
          (dget data "suffix").data].map _escape).filter (fun x => !x.isEmpty))))

/-- A line of the shape `PROPERTY[;PARAM]:VALUE`: a known property name,
an optional `;TYPE=` parameter, a colon, and an arbitrary value. -/
def propLine (l : Str) : Prop :=
  ∃ (name param v : Str),
    name ∈ ["N".data, "FN".data, "ORG".data, "TITLE".data, "ROLE".data, "URL".data,
      "BDAY".data, "EMAIL".data, "TEL".data, "ADR".data, "NOTE".data] ∧
    (param = [] ∨ ∃ t, param = ";TYPE=".data ++ t) ∧
    l = name ++ param ++ ':' :: v

/-- The first two characters of a line, used to tell the emitted
properties apart (all fourteen line kinds differ there). -/
def twoPfx : Str → Option (Char × Char)
  | a :: b :: _ => some (a, b)
  | _ => none

/-! ## Theorems -/

theorem replaceChar_append (c : Char) (new a b : Str) :
    replaceChar c new (a ++ b) = replaceChar c new a ++ replaceChar c new b := by
  induction a with
  | nil => rfl
  | cons x xs ih =>
    by_cases h : x = c <;> simp [replaceChar, h, ih]

theorem stage123 (s : Str) :
    replaceChar ',' ['\\', ','] (replaceChar ';' ['\\', ';']
      (replaceChar '\\' ['\\', '\\'] s)) = s.flatMap esc3 := by
  induction s with
  | nil => rfl
  | cons c rest ih =>
    by_cases h1 : c = '\\'
    · subst h1
      simp [replaceChar, replaceChar_append, esc3, ih]
    · by_cases h2 : c = ';'
      · subst h2
        simp [replaceChar, replaceChar_append, esc3, ih]
      · by_cases h3 : c = ','
        · subst h3
          simp [replaceChar, replaceChar_append, esc3, ih]
        · simp [replaceChar, esc3, h1, h2, h3, ih]

theorem replaceCRLF_cons_ne (new : Str) (a : Char) (t : Str) (h : a ≠ '\r') :
    replaceCRLF new (a :: t) = a :: replaceCRLF new t := by
  cases t <;> simp [replaceCRLF, h]

theorem replaceCRLF_cr (new : Str) (t : Str) (h : t.head? ≠ some '\n') :
    replaceCRLF new ('\r' :: t) = '\r' :: replaceCRLF new t := by
  cases t with
  | nil => rfl
  | cons b rest =>
    have hb : b ≠ '\n' := by simpa using h
    simp [replaceCRLF, hb]

theorem replaceCRLF_crlf (new : Str) (t : Str) :
    replaceCRLF new ('\r' :: '\n' :: t) = new ++ replaceCRLF new t := by
  simp [replaceCRLF]

theorem esc3_head_ne_lf (d : Char) (h : d ≠ '\n') (t : Str) :
    (esc3 d ++ t).head? ≠ some '\n' := by
  by_cases h1 : d = '\\'
  · simp [esc3, h1]
  · by_cases h2 : d = ';'
    · simp [esc3, h1, h2]
    · by_cases h3 : d = ','
      · simp [esc3, h1, h2, h3]
      · simp [esc3, h1, h2, h3, h]

/-- Composite of the last two stages of `_escape` over the
character-mapped first three stages equals the single-pass escape. -/
theorem flat_main : ∀ s : Str,
    replaceChar '\n' ['\\', 'n'] (replaceCRLF ['\\', 'n'] (s.flatMap esc3)) = specEscape s
  | [] => rfl
  | [c] => by
    by_cases h1 : c = '\\'
    · simp [esc3, escChar, specEscape, replaceCRLF, replaceChar, h1]
    · by_cases h2 : c = ';'
      · simp [esc3, escChar, specEscape, replaceCRLF, replaceChar, h1, h2]
      · by_cases h3 : c = ','
        · simp [esc3, escChar, specEscape, replaceCRLF, replaceChar, h1, h2, h3]
        · by_cases h4 : c = '\n'
          · simp [esc3, escChar, specEscape, replaceCRLF, replaceChar, h1, h2, h3, h4]
          · simp [esc3, escChar, specEscape, replaceCRLF, replaceChar, h1, h2, h3, h4]
  | c :: d :: rest => by
    by_cases hcd : c = '\r' ∧ d = '\n'
    · obtain ⟨hc, hd⟩ := hcd
      subst hc; subst hd
      have hc3 : esc3 '\r' = ['\r'] := by simp [esc3]
      have hd3 : esc3 '\n' = ['\n'] := by simp [esc3]
      simp only [List.flatMap_cons, hc3, hd3, List.cons_append, List.nil_append]
      rw [replaceCRLF_crlf]
      simp only [specEscape, if_pos (And.intro rfl rfl)]
      have := flat_main rest
      simp [replaceChar, this]
    · -- the pair (c, d) is not CR LF
      have hexp : (c :: d :: rest).flatMap esc3 = esc3 c ++ (d :: rest).flatMap esc3 := by
        simp
      rw [hexp]
      have key : replaceCRLF ['\\', 'n'] (esc3 c ++ (d :: rest).flatMap esc3)
          = esc3 c ++ replaceCRLF ['\\', 'n'] ((d :: rest).flatMap esc3) := by
        by_cases h1 : c = '\\'
        · simp only [esc3, if_pos h1, List.cons_append, List.nil_append]
          rw [replaceCRLF_cons_ne _ _ _ (by decide), replaceCRLF_cons_ne _ _ _ (by decide)]
        · by_cases h2 : c = ';'
          · simp only [esc3, if_neg h1, if_pos h2, List.cons_append, List.nil_append]
            rw [replaceCRLF_cons_ne _ _ _ (by decide), replaceCRLF_cons_ne _ _ _ (by decide)]
          · by_cases h3 : c = ','
            · simp only [esc3, if_neg h1, if_neg h2, if_pos h3, List.cons_append,
                List.nil_append]
              rw [replaceCRLF_cons_ne _ _ _ (by decide), replaceCRLF_cons_ne _ _ _ (by decide)]
            · by_cases hr : c = '\r'
              · subst hr
                have hd : d ≠ '\n' := fun hdn => hcd ⟨rfl, hdn⟩
                simp only [esc3, if_neg h1, if_neg h2, if_neg h3,
                  if_neg (by decide : ¬('\r' : Char) = '\n'), List.cons_append,
                  List.nil_append]
                rw [List.flatMap_cons, replaceCRLF_cr _ _ (esc3_head_ne_lf d hd _)]
              · simp only [esc3, if_neg h1, if_neg h2, if_neg h3]
                by_cases h4 : c = '\n'
                · simp only [if_pos h4, h4, List.cons_append, List.nil_append]
                  rw [replaceCRLF_cons_ne _ _ _ (by decide)]
                · simp only [if_neg h4, List.cons_append, List.nil_append]
                  rw [replaceCRLF_cons_ne _ _ _ hr]
      rw [key, replaceChar_append]
      have ih := flat_main (d :: rest)
      have r5esc : replaceChar '\n' ['\\', 'n'] (esc3 c) = escChar c := by
        by_cases h1 : c = '\\'
        · simp [esc3, escChar, replaceChar, h1]
        · by_cases h2 : c = ';'
          · simp [esc3, escChar, replaceChar, h1, h2]
          · by_cases h3 : c = ','
            · simp [esc3, escChar, replaceChar, h1, h2, h3]
            · by_cases h4 : c = '\n'
              · simp [esc3, escChar, replaceChar, h1, h2, h3, h4]
              · simp [esc3, escChar, replaceChar, h1, h2, h3, h4]
      rw [r5esc, ih]
      simp [specEscape, hcd]

/-- The chained replaces of the source equal the single-pass escape. -/
theorem escape_eq_specEscape (s : Str) : _escape s = specEscape s := by
  show replaceChar '\n' ['\\', 'n'] (replaceCRLF ['\\', 'n']
    (replaceChar ',' ['\\', ','] (replaceChar ';' ['\\', ';']
      (replaceChar '\\' ['\\', '\\'] s)))) = specEscape s
  rw [stage123, flat_main]

theorem unescape_cons_ne (c : Char) (t : Str) (h : c ≠ '\\') :
    unescape (c :: t) = c :: unescape t := by
  cases t <;> simp [unescape, h]

theorem unescape_bs (d : Char) (t : Str) :
    unescape ('\\' :: d :: t) = unescChar d :: unescape t := by
  simp [unescape]

/-- Unescaping the escape image of one character restores the character. -/
theorem unescape_escChar (c : Char) (t : Str) :
    unescape (escChar c ++ t) = c :: unescape t := by
  by_cases h1 : c = '\\'
  · subst h1
    have e : escChar '\\' = ['\\', '\\'] := by simp [escChar]
    rw [e]
    show unescape ('\\' :: '\\' :: t) = '\\' :: unescape t
    rw [unescape_bs]
    simp [unescChar]
  · by_cases h2 : c = ';'
    · subst h2
      have e : escChar ';' = ['\\', ';'] := by simp [escChar]
      rw [e]
      show unescape ('\\' :: ';' :: t) = ';' :: unescape t
      rw [unescape_bs]
      simp [unescChar]
    · by_cases h3 : c = ','
      · subst h3
        have e : escChar ',' = ['\\', ','] := by simp [escChar]
        rw [e]
        show unescape ('\\' :: ',' :: t) = ',' :: unescape t
        rw [unescape_bs]
        simp [unescChar]
      · by_cases h4 : c = '\n'
        · subst h4
          have e : escChar '\n' = ['\\', 'n'] := by simp [escChar]
          rw [e]
          show unescape ('\\' :: 'n' :: t) = '\n' :: unescape t
          rw [unescape_bs]
          simp [unescChar]
        · have e : escChar c = [c] := by simp [escChar, h1, h2, h3, h4]
          rw [e]
          show unescape (c :: t) = c :: unescape t
          exact unescape_cons_ne c t h1

/-- Unescaping the single-pass escape collapses every CR LF to LF and
restores everything else. -/
theorem unescape_specEscape : ∀ s : Str, unescape (specEscape s) = replaceCRLF ['\n'] s
  | [] => rfl
  | [c] => by
    have e1 : specEscape [c] = escChar c := by simp [specEscape]
    have e2 : escChar c ++ ([] : Str) = escChar c := by simp
    rw [e1, ← e2, unescape_escChar]
    rfl
  | c :: d :: rest => by
    by_cases hcd : c = '\r' ∧ d = '\n'
    · obtain ⟨hc, hd⟩ := hcd
      subst hc; subst hd
      rw [replaceCRLF_crlf]
      have e : specEscape ('\r' :: '\n' :: rest) = '\\' :: 'n' :: specEscape rest := by
        simp [specEscape]
      rw [e, unescape_bs, unescape_specEscape rest]
      simp [unescChar]
    · simp only [specEscape, if_neg hcd]
      rw [unescape_escChar, unescape_specEscape (d :: rest)]
      by_cases hc : c = '\r'
      · subst hc
        have hd : d ≠ '\n' := fun hdn => hcd ⟨rfl, hdn⟩
        rw [replaceCRLF_cr _ _ (by simpa using hd)]
      · rw [replaceCRLF_cons_ne _ _ _ hc]

/-- On a string with no CR the CRLF replacement does nothing. -/
theorem replaceCRLF_of_no_cr (new : Str) : ∀ s : Str, '\r' ∉ s → replaceCRLF new s = s
  | [], _ => rfl
  | [a], _ => rfl
  | a :: b :: rest, h => by
    have ha : a ≠ '\r' := fun hx => h (hx ▸ List.mem_cons_self a _)
    rw [replaceCRLF_cons_ne _ _ _ ha,
      replaceCRLF_of_no_cr new (b :: rest) (fun hx => h (List.mem_cons_of_mem a hx))]

/-- The escape of a non-empty string is non-empty. -/
theorem specEscape_ne_nil : ∀ (c : Char) (t : Str), specEscape (c :: t) ≠ [] := by
  intro c t
  cases t with
  | nil =>
    simp only [specEscape, escChar]
    split_ifs <;> simp
  | cons d rest =>
    simp only [specEscape]
    split_ifs with h
    · simp
    · have : escChar c ≠ [] := by
        simp only [escChar]
        split_ifs <;> simp
      simp [this]

theorem escape_eq_nil_iff (s : Str) : _escape s = [] ↔ s = [] := by
  rw [escape_eq_specEscape]
  cases s with
  | nil => simp [specEscape]
  | cons c t => simp [specEscape_ne_nil c t]

/-- Escaping touches nothing when no escapable character occurs. -/
theorem specEscape_id : ∀ s : Str,
    (∀ c ∈ s, c ≠ '\\' ∧ c ≠ ';' ∧ c ≠ ',' ∧ c ≠ '\n') → specEscape s = s
  | [], _ => rfl
  | [c], h => by
    obtain ⟨h1, h2, h3, h4⟩ := h c (by simp)
    simp [specEscape, escChar, h1, h2, h3, h4]
  | c :: d :: rest, h => by
    obtain ⟨h1, h2, h3, h4⟩ := h c (by simp)
    have hd4 : d ≠ '\n' := (h d (by simp)).2.2.2
    have hcd : ¬(c = '\r' ∧ d = '\n') := fun hx => hd4 hx.2
    have hesc : escChar c = [c] := by simp [escChar, h1, h2, h3, h4]
    have ih := specEscape_id (d :: rest) (fun x hx => h x (List.mem_cons_of_mem c hx))
    simp [specEscape, hcd, hesc, ih]

/-! ## Structure of the built vCard -/

theorem joinCRLF_cons (l : Str) (rest : List Str) :
    joinCRLF (l :: rest) = l ++ '\r' :: '\n' :: joinCRLF rest := rfl

theorem joinCRLF_ne_nil (l : Str) (rest : List Str) : joinCRLF (l :: rest) ≠ [] := by
  simp [joinCRLF]

theorem joinCRLF_append_singleton : ∀ (A : List Str) (e : Str),
    joinCRLF (A ++ [e]) = joinCRLF A ++ (e ++ ['\r', '\n'])
  | [], e => by simp [joinCRLF]
  | l :: rest, e => by
    simp only [List.cons_append, joinCRLF_cons, joinCRLF_append_singleton rest e,
      List.append_assoc]

theorem mem_singleLine {l : Str} {tag : String} {v : Str} :
    l ∈ singleLine tag v ↔ v ≠ [] ∧ l = tag.data ++ v := by
  unfold singleLine
  split_ifs with h <;> simp [h]

theorem mem_typedLine {l : Str} {tag : String} {v : Str} :
    l ∈ typedLine tag v ↔ v ≠ [] ∧ l = tag.data ++ _escape v := by
  unfold typedLine
  split_ifs with h <;> simp [h]

theorem mem_adrBlock {l : Str} {data : Data} {k : String} {tag : String} :
    l ∈ adrBlock data k tag ↔ adrCond data k ∧ l = adrLine data k tag := by
  unfold adrBlock
  split_ifs with h <;> simp [h]

/-- Exactly which lines `build_vcard` emits. -/
theorem mem_vcardLines {data : Data} {l : Str} :
    l ∈ vcardLines data ↔
      l = "BEGIN:VCARD".data ∨ l = "VERSION:3.0".data ∨ l = nLine data ∨
      l = "FN:".data ++ fnValue data ∨
      (orgV data ≠ [] ∧ l = "ORG:".data ++ orgV data) ∨
      (titleV data ≠ [] ∧ l = "TITLE:".data ++ titleV data) ∨
      (roleV data ≠ [] ∧ l = "ROLE:".data ++ roleV data) ∨
      (urlV data ≠ [] ∧ l = "URL:".data ++ urlV data) ∨
      (bdayValue data ≠ [] ∧ l = "BDAY:".data ++ bdayValue data) ∨
      (multiV data "email_work" ≠ [] ∧
        l = "EMAIL;TYPE=WORK:".data ++ _escape (multiV data "email_work")) ∨
      (multiV data "email_home" ≠ [] ∧
        l = "EMAIL;TYPE=HOME:".data ++ _escape (multiV data "email_home")) ∨
      (multiV data "tel_cell" ≠ [] ∧
        l = "TEL;TYPE=CELL:".data ++ _escape (multiV data "tel_cell")) ∨
      (multiV data "tel_work" ≠ [] ∧
        l = "TEL;TYPE=WORK:".data ++ _escape (multiV data "tel_work")) ∨
      (multiV data "tel_home" ≠ [] ∧
        l = "TEL;TYPE=HOME:".data ++ _escape (multiV data "tel_home")) ∨
      (adrCond data "home" ∧ l = adrLine data "home" "ADR;TYPE=HOME:;;") ∨
      (adrCond data "work" ∧ l = adrLine data "work" "ADR;TYPE=WORK:;;") ∨
      (noteV data ≠ [] ∧ l = "NOTE:".data ++ noteV data) ∨
      l = "END:VCARD".data := by
  simp only [vcardLines, emailLines, telLines, List.append_assoc, List.mem_append,
    List.mem_cons, List.mem_singleton, List.not_mem_nil, or_false, false_or,
    mem_singleLine, mem_typedLine, mem_adrBlock, or_assoc]

theorem data_eq_nil_iff (s : String) : s.data = [] ↔ s = "" := by
  constructor
  · intro h
    exact congrArg String.mk h
  · intro h
    rw [h]

theorem escape_data_eq_nil_iff (s : String) : _escape s.data = [] ↔ s = "" := by
  rw [escape_eq_nil_iff, data_eq_nil_iff]

/-- Each emitted line kind is identified by its first two characters;
a line starting like one of the optional properties is that property's
line, with the value the builder computed for it. -/
theorem lines_by_pfx (data : Data) (l : Str) (hmem : l ∈ vcardLines data) :
    (twoPfx l = some ('O', 'R') → orgV data ≠ [] ∧ l = "ORG:".data ++ orgV data) ∧
    (twoPfx l = some ('T', 'I') → titleV data ≠ [] ∧ l = "TITLE:".data ++ titleV data) ∧
    (twoPfx l = some ('R', 'O') → roleV data ≠ [] ∧ l = "ROLE:".data ++ roleV data) ∧
    (twoPfx l = some ('U', 'R') → urlV data ≠ [] ∧ l = "URL:".data ++ urlV data) ∧
    (twoPfx l = some ('N', 'O') → noteV data ≠ [] ∧ l = "NOTE:".data ++ noteV data) ∧
    (twoPfx l = some ('B', 'D') → bdayValue data ≠ [] ∧ l = "BDAY:".data ++ bdayValue data)
    := by
  rw [mem_vcardLines] at hmem
  rcases hmem with rfl | rfl | rfl | rfl | ⟨hv, rfl⟩ | ⟨hv, rfl⟩ | ⟨hv, rfl⟩ | ⟨hv, rfl⟩ |
    ⟨hv, rfl⟩ | ⟨hv, rfl⟩ | ⟨hv, rfl⟩ | ⟨hv, rfl⟩ | ⟨hv, rfl⟩ | ⟨hv, rfl⟩ | ⟨hv, rfl⟩ |
    ⟨hv, rfl⟩ | ⟨hv, rfl⟩ | rfl
  all_goals refine ⟨?_, ?_, ?_, ?_, ?_, ?_⟩
  all_goals intro hp
  all_goals first
    | (injection hp with h1; exact absurd h1 (by decide))
    | exact ⟨hv, rfl⟩

/-- When the computed birthday value is empty no `BDAY` line exists. -/
theorem no_bday_line {data : Data} (h : bdayValue data = []) :
    ¬∃ v : Str, ("BDAY:".data ++ v) ∈ vcardLines data := by
  rintro ⟨v, hv⟩
  exact ((lines_by_pfx data _ hv).2.2.2.2.2 rfl).1 h

/-! ## Claims -/

/-- C1: `_escape` performs exactly the claimed substitutions in the
claimed order: it coincides with the single-pass escaper `specEscape`
(backslash doubled, semicolon and comma backslash-protected, CR LF and
bare LF both becoming backslash + literal n) on every input; a leading
CR LF and a leading bare LF escape to the same result in any common
suffix context; and a string with none of the four escapable characters
(in particular one holding a bare CR) is returned unchanged. -/
theorem claim_C1 :
    (∀ s : Str, _escape s = specEscape s)
    ∧ (∀ b : Str, _escape ('\r' :: '\n' :: b) = _escape ('\n' :: b))
    ∧ (∀ s : Str, (∀ c ∈ s, c ≠ '\\' ∧ c ≠ ';' ∧ c ≠ ',' ∧ c ≠ '\n') → _escape s = s) := by
  refine ⟨escape_eq_specEscape, fun b => ?_, fun s h => ?_⟩
  · rw [escape_eq_specEscape, escape_eq_specEscape]
    have e1 : specEscape ('\r' :: '\n' :: b) = '\\' :: 'n' :: specEscape b := by
      simp [specEscape]
    have e2 : specEscape ('\n' :: b) = '\\' :: 'n' :: specEscape b := by
      cases b with
      | nil => simp [specEscape, escChar]
      | cons d rest => simp [specEscape, escChar]
    rw [e1, e2]
  · rw [escape_eq_specEscape, specEscape_id s h]

/-- Witness for C1 at concrete inputs: a bare CR is left alone, and the
CR LF and bare LF forms of a line break escape identically. -/
theorem claim_C1_witness :
    _escape ['\r'] = ['\r'] ∧ _escape ['\r', '\n', 'x'] = _escape ['\n', 'x'] :=
  ⟨claim_C1.2.2 ['\r'] (by decide), claim_C1.2.1 ['x']⟩

/-- C2 counterexample: the round-trip is not the identity on every string
with an embedded line break: CR LF escapes to backslash-n, which a
compliant parser unescapes to a bare LF. -/
theorem claim_C2_cex :
    unescape (_escape ['\r', '\n']) = ['\n'] ∧ (['\n'] : Str) ≠ ['\r', '\n'] := by
  constructor
  · decide
  · decide

/-- C2 (amended): escaping then unescaping per the vCard 3.0 grammar
recovers the original string with every CR LF collapsed to a bare LF;
in particular the round-trip is exactly the identity on every string
containing no CR. -/
theorem claim_C2 :
    (∀ s : Str, unescape (_escape s) = replaceCRLF ['\n'] s)
    ∧ (∀ s : Str, '\r' ∉ s → unescape (_escape s) = s) := by
  constructor
  · intro s
    rw [escape_eq_specEscape, unescape_specEscape]
  · intro s h
    rw [escape_eq_specEscape, unescape_specEscape, replaceCRLF_of_no_cr _ s h]

/-- Witness for C2 at a concrete CR-free input containing a comma, a
semicolon, a backslash and a bare LF. -/
theorem claim_C2_witness :
    unescape (_escape "a,b;c\\d\ne".data) = "a,b;c\\d\ne".data :=
  claim_C2.2 _ (by decide)

/-- C4: `build_vcard` is a total function (the embedding returns a value
for every mapping, and the output is never empty), and on the empty
mapping it produces exactly the minimal vCard with empty `N` and `FN`
components, CRLF separators and a trailing CRLF. -/
theorem claim_C4 :
    build_vcard [] = "BEGIN:VCARD\r\nVERSION:3.0\r\nN:;;;;\r\nFN:\r\nEND:VCARD\r\n".data
    ∧ ∀ data : Data, build_vcard data ≠ [] := by
  refine ⟨by decide, fun data => ?_⟩
  exact joinCRLF_ne_nil _ _

/-- C3 counterexample: with only `first_name = "a,b"` the emitted FN
value is the component escaped twice (`a\\\,b`), not the join of the raw
components escaped once (`a\,b`). -/
theorem claim_C3_cex :
    (vcardLines [("first_name", "a,b")]).get? 3 = some "FN:a\\\\\\,b".data
    ∧ "FN:a\\\\\\,b".data ≠ "FN:".data ++ _escape "a,b".data := by
  constructor
  · decide
  · decide

/-- C3 (amended): an FN line is always emitted as the fourth line; a
non-empty `full_name` is stripped and escaped once, otherwise the name
components are each escaped, the non-empty escaped components are joined
with single spaces, and the join is stripped and escaped a second time
(so special characters in synthesized names are escaped twice). -/
theorem claim_C3 : ∀ data : Data,
    (vcardLines data).get? 3 = some ("FN:".data ++ fnSpec data) := by
  intro data
  have e : fnValue data = fnSpec data := by
    simp only [fnValue, fnSpec, joinSp]
    split_ifs with h <;> rfl
  rw [show (vcardLines data).get? 3 = some ("FN:".data ++ fnValue data) from rfl, e]

/-- C5: the output is the CRLF-join of the line list with a trailing
CRLF, begins with the `BEGIN:VCARD` line followed by `VERSION:3.0`, ends
with the `END:VCARD` line, and every line is one of the begin/version/end
markers or has the `PROPERTY[;PARAM]:VALUE` shape. -/
theorem claim_C5 : ∀ data : Data,
    build_vcard data = joinCRLF (vcardLines data)
    ∧ (∃ t, build_vcard data = "BEGIN:VCARD\r\n".data ++ t)
    ∧ (∃ t, build_vcard data = t ++ "END:VCARD\r\n".data)
    ∧ (vcardLines data).take 2 = ["BEGIN:VCARD".data, "VERSION:3.0".data]
    ∧ ∀ l ∈ vcardLines data,
        l = "BEGIN:VCARD".data ∨ l = "VERSION:3.0".data ∨ l = "END:VCARD".data ∨
          propLine l := by
  intro data
  refine ⟨rfl, ⟨_, rfl⟩, ?_, rfl, ?_⟩
  · obtain ⟨A, hA⟩ : ∃ A, vcardLines data = A ++ ["END:VCARD".data] := ⟨_, rfl⟩
    show ∃ t, joinCRLF (vcardLines data) = t ++ "END:VCARD\r\n".data
    rw [hA, joinCRLF_append_singleton]
    exact ⟨_, rfl⟩
  · intro l hl
    rw [mem_vcardLines] at hl
    rcases hl with rfl | rfl | rfl | rfl | ⟨hv, rfl⟩ | ⟨hv, rfl⟩ | ⟨hv, rfl⟩ | ⟨hv, rfl⟩ |
      ⟨hv, rfl⟩ | ⟨hv, rfl⟩ | ⟨hv, rfl⟩ | ⟨hv, rfl⟩ | ⟨hv, rfl⟩ | ⟨hv, rfl⟩ | ⟨hv, rfl⟩ |
      ⟨hv, rfl⟩ | ⟨hv, rfl⟩ | rfl
    · exact Or.inl rfl
    · exact Or.inr (Or.inl rfl)
    · exact Or.inr (Or.inr (Or.inr ⟨"N".data, [], _, by decide, Or.inl rfl, rfl⟩))
    · exact Or.inr (Or.inr (Or.inr ⟨"FN".data, [], _, by decide, Or.inl rfl, rfl⟩))
    · exact Or.inr (Or.inr (Or.inr ⟨"ORG".data, [], _, by decide, Or.inl rfl, rfl⟩))
    · exact Or.inr (Or.inr (Or.inr ⟨"TITLE".data, [], _, by decide, Or.inl rfl, rfl⟩))
    · exact Or.inr (Or.inr (Or.inr ⟨"ROLE".data, [], _, by decide, Or.inl rfl, rfl⟩))
    · exact Or.inr (Or.inr (Or.inr ⟨"URL".data, [], _, by decide, Or.inl rfl, rfl⟩))
    · exact Or.inr (Or.inr (Or.inr ⟨"BDAY".data, [], _, by decide, Or.inl rfl, rfl⟩))
    · exact Or.inr (Or.inr (Or.inr
        ⟨"EMAIL".data, ";TYPE=".data ++ "WORK".data, _, by decide,
          Or.inr ⟨"WORK".data, rfl⟩, rfl⟩))
    · exact Or.inr (Or.inr (Or.inr
        ⟨"EMAIL".data, ";TYPE=".data ++ "HOME".data, _, by decide,
          Or.inr ⟨"HOME".data, rfl⟩, rfl⟩))
    · exact Or.inr (Or.inr (Or.inr
        ⟨"TEL".data, ";TYPE=".data ++ "CELL".data, _, by decide,
          Or.inr ⟨"CELL".data, rfl⟩, rfl⟩))
    · exact Or.inr (Or.inr (Or.inr
        ⟨"TEL".data, ";TYPE=".data ++ "WORK".data, _, by decide,
          Or.inr ⟨"WORK".data, rfl⟩, rfl⟩))
    · exact Or.inr (Or.inr (Or.inr
        ⟨"TEL".data, ";TYPE=".data ++ "HOME".data, _, by decide,
          Or.inr ⟨"HOME".data, rfl⟩, rfl⟩))
    · exact Or.inr (Or.inr (Or.inr
        ⟨"ADR".data, ";TYPE=".data ++ "HOME".data, _, by decide,
          Or.inr ⟨"HOME".data, rfl⟩, rfl⟩))
    · exact Or.inr (Or.inr (Or.inr
        ⟨"ADR".data, ";TYPE=".data ++ "WORK".data, _, by decide,
          Or.inr ⟨"WORK".data, rfl⟩, rfl⟩))
    · exact Or.inr (Or.inr (Or.inr ⟨"NOTE".data, [], _, by decide, Or.inl rfl, rfl⟩))
    · exact Or.inr (Or.inr (Or.inl rfl))

/-- Witness for C5: the `N:;;;;` line of the minimal vCard is covered by
the line-shape disjunction. -/
theorem claim_C5_witness :
    "N:;;;;".data = "BEGIN:VCARD".data ∨ "N:;;;;".data = "VERSION:3.0".data ∨
    "N:;;;;".data = "END:VCARD".data ∨ propLine "N:;;;;".data :=
  (claim_C5 []).2.2.2.2 _ (by decide)

/-- C6: if the trimmed `bday` field parses as an ISO calendar date the
`BDAY` line carries the canonical `YYYY-MM-DD` value; on parse failure
the computed value is the trimmed input with every character other than
a digit or hyphen removed (the build never fails); an empty field emits
no `BDAY` line. -/
theorem claim_C6 : ∀ data : Data,
    (∀ d : PyDate, parseIso (pstrip (dget data "bday").data) = some d →
      bdayValue data = isoformat d ∧ ("BDAY:".data ++ isoformat d) ∈ vcardLines data)
    ∧ (pstrip (dget data "bday").data ≠ [] →
        parseIso (pstrip (dget data "bday").data) = none →
        bdayValue data = (pstrip (dget data "bday").data).filter isDigitHyphen)
    ∧ (pstrip (dget data "bday").data = [] →
        ¬∃ v : Str, ("BDAY:".data ++ v) ∈ vcardLines data) := by
  intro data
  refine ⟨fun d hp => ?_, fun hne hp => ?_, fun hnil => ?_⟩
  · have hb0 : pstrip (dget data "bday").data ≠ [] := by
      intro h0
      rw [h0] at hp
      simp [parseIso] at hp
    have hb : bdayValue data = isoformat d := by
      simp only [bdayValue]
      rw [if_neg hb0, hp]
    have hnn : isoformat d ≠ [] := by simp [isoformat, pad4]
    refine ⟨hb, ?_⟩
    rw [mem_vcardLines]
    exact Or.inr (Or.inr (Or.inr (Or.inr (Or.inr (Or.inr (Or.inr (Or.inr (Or.inl
      ⟨by rw [hb]; exact hnn, by rw [hb]⟩))))))))
  · simp only [bdayValue]
    rw [if_neg hne, hp]
  · apply no_bday_line
    simp only [bdayValue]
    rw [if_pos hnil]

/-- Witness for C6 at a concrete parseable birthday. -/
theorem claim_C6_witness :
    ("BDAY:".data ++ isoformat ⟨1980, 1, 31⟩) ∈ vcardLines [("bday", "1980-01-31")] :=
  ((claim_C6 _).1 ⟨1980, 1, 31⟩ (by decide)).2

/-- C7 counterexample: a whitespace-only `org` field is empty after
trimming, yet an `ORG: ` line is still emitted (the source tests the
escaped value for truthiness without stripping it). -/
theorem claim_C7_cex :
    "ORG: ".data ∈ vcardLines [("org", " ")] ∧ pstrip " ".data = [] := by
  constructor
  · decide
  · decide

/-- C7 (amended): each of ORG, TITLE, ROLE, URL, NOTE is emitted, with
the escaped field value, exactly when the raw field value is non-empty
(no trimming is applied, so a whitespace-only field does produce a
line). -/
theorem claim_C7 : ∀ data : Data,
    (("ORG:".data ++ _escape (dget data "org").data) ∈ vcardLines data ↔
      dget data "org" ≠ "")
    ∧ (("TITLE:".data ++ _escape (dget data "title").data) ∈ vcardLines data ↔
      dget data "title" ≠ "")
    ∧ (("ROLE:".data ++ _escape (dget data "role").data) ∈ vcardLines data ↔
      dget data "role" ≠ "")
    ∧ (("URL:".data ++ _escape (dget data "url").data) ∈ vcardLines data ↔
      dget data "url" ≠ "")
    ∧ (("NOTE:".data ++ _escape (dget data "note").data) ∈ vcardLines data ↔
      dget data "note" ≠ "") := by
  intro data
  refine ⟨?_, ?_, ?_, ?_, ?_⟩
  all_goals constructor
  · intro h
    exact fun he => ((lines_by_pfx data _ h).1 rfl).1 ((escape_data_eq_nil_iff _).mpr he)
  · intro h
    rw [mem_vcardLines]
    exact Or.inr (Or.inr (Or.inr (Or.inr (Or.inl
      ⟨fun he => h ((escape_data_eq_nil_iff _).mp he), rfl⟩))))
  · intro h
    exact fun he => ((lines_by_pfx data _ h).2.1 rfl).1 ((escape_data_eq_nil_iff _).mpr he)
  · intro h
    rw [mem_vcardLines]
    exact Or.inr (Or.inr (Or.inr (Or.inr (Or.inr (Or.inl
      ⟨fun he => h ((escape_data_eq_nil_iff _).mp he), rfl⟩)))))
  · intro h
    exact fun he => ((lines_by_pfx data _ h).2.2.1 rfl).1 ((escape_data_eq_nil_iff _).mpr he)
  · intro h
    rw [mem_vcardLines]
    exact Or.inr (Or.inr (Or.inr (Or.inr (Or.inr (Or.inr (Or.inl
      ⟨fun he => h ((escape_data_eq_nil_iff _).mp he), rfl⟩))))))
  · intro h
    exact fun he => ((lines_by_pfx data _ h).2.2.2.1 rfl).1 ((escape_data_eq_nil_iff _).mpr he)
  · intro h
    rw [mem_vcardLines]
    exact Or.inr (Or.inr (Or.inr (Or.inr (Or.inr (Or.inr (Or.inr (Or.inl
      ⟨fun he => h ((escape_data_eq_nil_iff _).mp he), rfl⟩)))))))
  · intro h
    exact fun he => ((lines_by_pfx data _ h).2.2.2.2.1 rfl).1 ((escape_data_eq_nil_iff _).mpr he)
  · intro h
    rw [mem_vcardLines]
    exact Or.inr (Or.inr (Or.inr (Or.inr (Or.inr (Or.inr (Or.inr (Or.inr (Or.inr (Or.inr
      (Or.inr (Or.inr (Or.inr (Or.inr (Or.inr (Or.inr (Or.inl
        ⟨fun he => h ((escape_data_eq_nil_iff _).mp he), rfl⟩))))))))))))))))

/-- Witness for C7 at a concrete non-empty field. -/
theorem claim_C7_witness :
    ("ORG:".data ++ _escape (dget [("org", "Acme")] "org").data) ∈
      vcardLines [("org", "Acme")] :=
  ((claim_C7 _).1).mpr (by decide)

/-- C9 counterexample: a whitespace-only `last_name` is truthy, so the
claim predicts the base `" "`, sanitised to `"_"`, giving `_.vcf`; the
code strips the base first and falls back to the literal `contact`. -/
theorem claim_C9_cex :
    vcfFilename [("last_name", " ")] = "contact.vcf".data
    ∧ "contact.vcf".data ≠ "_.vcf".data := by
  constructor
  · decide
  · decide

/-- C9 (amended): the filename base is `last_name`, falling back to
`full_name` then to the literal `contact` when empty, then stripped,
with another fallback to `contact` when stripping leaves nothing; every
character outside `A-Za-z0-9_.-` is replaced by an underscore and the
extension is appended; `O'Brien!` still yields `O_Brien_.vcf`. -/
theorem claim_C9 :
    (∀ data : Data,
      (∀ c ∈ sanitizeBase data, isFnameOk c = true)
      ∧ vcfFilename data = sanitizeBase data ++ ".vcf".data
      ∧ pngFilename data = sanitizeBase data ++ ".png".data
      ∧ (pstrip (dget data "last_name").data = [] →
          pstrip (dget data "full_name").data = [] →
          vcfFilename data = "contact.vcf".data))
    ∧ vcfFilename [("last_name", String.mk ['O', Char.ofNat 39, 'B', 'r', 'i', 'e', 'n', '!'])]
        = "O_Brien_.vcf".data := by
  constructor
  · intro data
    refine ⟨fun c hc => ?_, rfl, rfl, fun h1 h2 => ?_⟩
    · simp only [sanitizeBase] at hc
      rw [List.mem_map] at hc
      obtain ⟨x, hx, rfl⟩ := hc
      by_cases hok : isFnameOk x
      · rw [if_pos hok]
        exact hok
      · rw [if_neg hok]
        decide
    · have hsb : strippedBase data = "contact".data := by
        unfold strippedBase rawBase
        by_cases hl : dget data "last_name" ≠ ""
        · rw [if_pos hl, if_pos h1]
        · rw [if_neg hl]
          by_cases hf : dget data "full_name" ≠ ""
          · rw [if_pos hf, if_pos h2]
          · rw [if_neg hf, if_neg (by decide : ¬(pstrip "contact".data = []))]
            decide
      show sanitizeBase data ++ ".vcf".data = "contact.vcf".data
      unfold sanitizeBase
      rw [hsb]
      decide
  · decide

/-- Witness for C9 at a whitespace-only `last_name`. -/
theorem claim_C9_witness :
    vcfFilename [("last_name", " ")] = "contact.vcf".data :=
  (claim_C9.1 _).2.2.2 (by decide) (by decide)

/-- C10: a non-empty `bday` that fails date parsing and contains neither
a digit nor a hyphen makes the digit-stripping fallback empty, so no
`BDAY` line is emitted at all. -/
theorem claim_C10 : ∀ data : Data,
    pstrip (dget data "bday").data ≠ [] →
    parseIso (pstrip (dget data "bday").data) = none →
    (∀ c ∈ pstrip (dget data "bday").data, isDigitHyphen c = false) →
    bdayValue data = [] ∧ ¬∃ v : Str, ("BDAY:".data ++ v) ∈ vcardLines data := by
  intro data hne hp hall
  have hb : bdayValue data = [] := by
    simp only [bdayValue]
    rw [if_neg hne, hp]
    exact List.filter_eq_nil_iff.mpr (fun a ha => by simp [hall a ha])
  exact ⟨hb, no_bday_line hb⟩

/-- Witness for C10 at the concrete input `abc`. -/
theorem claim_C10_witness :
    bdayValue [("bday", "abc")] = []
    ∧ ¬∃ v : Str, ("BDAY:".data ++ v) ∈ vcardLines [("bday", "abc")] :=
  claim_C10 _ (by decide) (by decide) (by decide)

/-- Witness for C4 at a concrete mapping. -/
theorem claim_C4_witness : build_vcard [("org", "Acme")] ≠ [] :=
  claim_C4.2 [("org", "Acme")]

end VCard
